import Mathlib

/-!
Verification development for the LoRa telemetry receiver script
(`rasppi_lora_receiver.py`).  The Python source is shallowly embedded:
strings are `List Char`, byte strings are `List ℕ` (each entry < 256),
Python floats are modelled exactly (a rational for finite values, plus
the special values `inf`, `-inf`, `nan`); fallible Python code returns
`Option`/`Except`, with the exception classes that `main` distinguishes
(`IndexError`, `ValueError`, and the uncaught `OverflowError`) made
explicit.  IEEE-754 double rounding of arithmetic is not modelled: all
finite float arithmetic is exact rational arithmetic.
-/

/-- Exception classes that matter to the script: `main` catches
`IndexError` and `ValueError`; `OverflowError` (raised by `int()` on an
infinite float) is not caught anywhere. -/
inductive PyErr
  | indexError
  | valueError
  | overflowError
deriving DecidableEq

/-- A Python float value: a finite value (modelled exactly as a rational),
positive/negative infinity, or NaN. -/
inductive PyF
  | finite (q : ℚ)
  | inf
  | ninf
  | nan
deriving DecidableEq

instance instDecEqExcept {ε α : Type} [DecidableEq ε] [DecidableEq α] :
    DecidableEq (Except ε α) := fun x y =>
  match x, y with
  | .error a, .error b =>
    if h : a = b then isTrue (by rw [h]) else isFalse (by simp [h])
  | .error _, .ok _ => isFalse (by simp)
  | .ok _, .error _ => isFalse (by simp)
  | .ok a, .ok b =>
    if h : a = b then isTrue (by rw [h]) else isFalse (by simp [h])

/-- Python `s.split(sep)` for a one-character separator: every occurrence
of the separator delimits a (possibly empty) segment; the empty string
splits into `[""]`. -/
def pySplit (sep : Char) : List Char → List (List Char)
  | [] => [[]]
  | c :: cs =>
    if c = sep then [] :: pySplit sep cs
    else
      match pySplit sep cs with
      | [] => [[c]]
      | p :: ps => (c :: p) :: ps

/-- `pySplit` never returns the empty list of segments. -/
theorem pySplit_ne_nil (sep : Char) (l : List Char) : pySplit sep l ≠ [] := by
  cases l with
  | nil => simp [pySplit]
  | cons c cs =>
    simp only [pySplit]
    split
    · simp
    · split <;> simp

/-- Splitting a separator-free string yields that single segment. -/
theorem pySplit_sepFree {sep : Char} {l : List Char} (h : sep ∉ l) :
    pySplit sep l = [l] := by
  induction l with
  | nil => rfl
  | cons c cs ih =>
    simp only [List.mem_cons] at h
    push_neg at h
    have hcs : ¬ c = sep := fun hc => h.1 hc.symm
    simp only [pySplit, ih h.2, if_neg hcs]

/-- Splitting at the first separator: a separator-free prefix becomes the
first segment and the rest is split recursively. -/
theorem pySplit_append {sep : Char} {a b : List Char} (h : sep ∉ a) :
    pySplit sep (a ++ sep :: b) = a :: pySplit sep b := by
  induction a with
  | nil => simp [pySplit]
  | cons c cs ih =>
    simp only [List.mem_cons] at h
    push_neg at h
    have hcs : ¬ c = sep := fun hc => h.1 hc.symm
    simp only [List.cons_append, pySplit, List.append_eq, ih h.2, if_neg hcs]

/-- `sep.join(fields)`: interleave the separator between the fields
(Python `"|".join`); the payload sender produces its field list this way. -/
def joinSep (sep : Char) : List (List Char) → List Char
  | [] => []
  | [f] => f
  | f :: fs => f ++ sep :: joinSep sep fs

/-- Every character of a joined list is the separator or comes from one
of the fields. -/
theorem mem_joinSep {sep c : Char} {fs : List (List Char)}
    (h : c ∈ joinSep sep fs) : c = sep ∨ ∃ f ∈ fs, c ∈ f := by
  induction fs with
  | nil => simp [joinSep] at h
  | cons f fs ih =>
    cases fs with
    | nil =>
      simp only [joinSep] at h
      exact Or.inr ⟨f, by simp, h⟩
    | cons g gs =>
      simp only [joinSep, List.mem_append, List.mem_cons] at h
      rcases h with h | h | h
      · exact Or.inr ⟨f, by simp, h⟩
      · exact Or.inl h
      · rcases ih h with h' | ⟨f', hf', hc⟩
        · exact Or.inl h'
        · exact Or.inr ⟨f', List.mem_cons_of_mem _ hf', hc⟩

/-- Splitting inverts joining when no field contains the separator. -/
theorem pySplit_joinSep {sep : Char} {fs : List (List Char)}
    (hne : fs ≠ []) (h : ∀ f ∈ fs, sep ∉ f) :
    pySplit sep (joinSep sep fs) = fs := by
  induction fs with
  | nil => exact absurd rfl hne
  | cons f fs ih =>
    cases fs with
    | nil => exact pySplit_sepFree (h f (by simp))
    | cons g gs =>
      simp only [joinSep]
      rw [pySplit_append (h f (by simp))]
      congr 1
      exact ih (by simp) fun x hx => h x (List.mem_cons_of_mem _ hx)

/-- ASCII whitespace ignored by Python `float()` at either end of the
string (Python additionally ignores some Unicode whitespace, which never
occurs on this ASCII serial link and is not modelled). -/
def isPySpace (c : Char) : Bool :=
  c = ' ' || c = '\t' || c = '\n' || c = '\r' || c = '\x0b' || c = '\x0c'

/-- Strip leading and trailing whitespace. -/
def stripSpaces (s : List Char) : List Char :=
  ((s.dropWhile isPySpace).reverse.dropWhile isPySpace).reverse

/-- Lower-case an ASCII letter (for case-insensitive `inf`/`nan`). -/
def lcChar (c : Char) : Char :=
  if 'A' ≤ c && c ≤ 'Z' then Char.ofNat (c.toNat + 32) else c

/-- Helper for `underscoresOk`: walk the string remembering the previous
character; every `_` must sit between two digits. -/
def underscoresOkGo (prev : Char) : List Char → Bool
  | [] => true
  | '_' :: [] => false
  | '_' :: d :: rest => prev.isDigit && d.isDigit && underscoresOkGo d rest
  | c :: rest => underscoresOkGo c rest

/-- Python 3.6+ numeric-literal underscores: legal iff every underscore is
flanked by digits (then the underscores are simply removed). -/
def underscoresOk : List Char → Bool
  | [] => true
  | '_' :: _ => false
  | c :: rest => underscoresOkGo c rest

/-- Consume an optional sign; returns (isNegative, rest). -/
def parseSign : List Char → Bool × List Char
  | '+' :: r => (false, r)
  | '-' :: r => (true, r)
  | r => (false, r)

/-- Numeric value of a digit string (most significant first). -/
def digitsVal (l : List Char) : ℕ :=
  l.foldl (fun a c => 10 * a + (c.toNat - 48)) 0

/-- Parse the optional exponent suffix of a float literal.  `ds` is the
numeric value of all mantissa digits and `fracLen` the number of digits
after the dot, so the literal's exact value is
`ds * 10^(exponent) / 10^fracLen`, built here directly with `mkRat`.
The whole rest of the string must be consumed. -/
def parseExp (ds : ℕ) (fracLen : ℕ) : List Char → Option ℚ
  | [] => some (mkRat ds (10 ^ fracLen))
  | e :: t =>
    if e = 'e' || e = 'E' then
      let st := parseSign t
      let dp := st.2.span Char.isDigit
      if dp.1 ≠ [] ∧ dp.2 = [] then
        some (if st.1 then mkRat ds (10 ^ (fracLen + digitsVal dp.1))
              else mkRat (ds * 10 ^ digitsVal dp.1) (10 ^ fracLen))
      else none
    else none

/-- Parse an unsigned float literal (digits, optional dot, optional
exponent); at least one mantissa digit is required. -/
def parseUnsigned (s : List Char) : Option ℚ :=
  let ip := s.span Char.isDigit
  match ip.2 with
  | '.' :: t =>
    let fp := t.span Char.isDigit
    if ip.1 = [] ∧ fp.1 = [] then none
    else parseExp (digitsVal (ip.1 ++ fp.1)) fp.1.length fp.2
  | r =>
    if ip.1 = [] then none
    else parseExp (digitsVal ip.1) 0 r

/-- Python's `float(str)` on ASCII input: optional surrounding whitespace,
optional sign, then a decimal literal (with legal underscores) or a
case-insensitive `inf`/`infinity`/`nan`.  `none` models a raised
`ValueError`.  Finite values are exact rationals (see the header note). -/
def pyFloat (s0 : List Char) : Option PyF :=
  let s1 := stripSpaces s0
  if underscoresOk s1 then
    let s := s1.filter (fun c => c ≠ '_')
    let sg := parseSign s
    let rl := sg.2.map lcChar
    if rl = "inf".data ∨ rl = "infinity".data then
      some (if sg.1 then PyF.ninf else PyF.inf)
    else if rl = "nan".data then some PyF.nan
    else
      match parseUnsigned sg.2 with
      | none => none
      | some q => some (PyF.finite (if sg.1 then -q else q))
  else none

/-- The list comprehension `[float(i) for i in payload]`: the first
failing conversion raises `ValueError` for the whole list. -/
def mapFloat : List (List Char) → Option (List PyF)
  | [] => some []
  | f :: fs =>
    match pyFloat f with
    | none => none
    | some v =>
      match mapFloat fs with
      | none => none
      | some vs => some (v :: vs)

/-- `parse_payload` from the script: split the line on `,`, take segment
index 2 (raising `IndexError` when it does not exist), split that segment
on `|`, and convert every part with `float` (raising `ValueError` on the
first non-numeric part).  Note: the length of the resulting list is NOT
checked. -/
def parse_payload (payload : List Char) : Except PyErr (List PyF) :=
  match (pySplit ',' payload).get? 2 with
  | none => Except.error PyErr.indexError
  | some third =>
    match mapFloat (pySplit '|' third) with
    | none => Except.error PyErr.valueError
    | some vals => Except.ok vals

example : pyFloat "23.94".data = some (PyF.finite (mkRat 2394 100)) := by decide
example : pyFloat "  -1_2.5e2 ".data = some (PyF.finite (-(mkRat 1250 1))) := by decide
example : pyFloat "abc".data = none := by decide
example : pyFloat "".data = none := by decide
example : pyFloat "INFinity".data = some PyF.inf := by decide
example : pyFloat "-inf".data = some PyF.ninf := by decide
example : pyFloat "1_".data = none := by decide
example : pyFloat "1_.2".data = none := by decide
example : pyFloat ".5e+3".data = some (PyF.finite (mkRat 500 1)) := by decide
example : pyFloat "0x1A".data = none := by decide
example :
    parse_payload "+RCV=116,29,23.94|37.71|99.89|16|38|53|80,-61,56".data =
      Except.ok [PyF.finite (mkRat 2394 100), PyF.finite (mkRat 3771 100),
        PyF.finite (mkRat 9989 100), PyF.finite (mkRat 16 1), PyF.finite (mkRat 38 1),
        PyF.finite (mkRat 53 1), PyF.finite (mkRat 80 1)] := by decide

/-- Python 3's `round` to an integer: round half to even (banker's
rounding).  `round(x, 0)` returns an integral float and `int(...)` then
converts it exactly, so the composition is this function on finite
values. -/
def roundHalfEven (q : ℚ) : ℤ :=
  if q - ⌊q⌋ < 1/2 then ⌊q⌋
  else if 1/2 < q - ⌊q⌋ then ⌊q⌋ + 1
  else if 2 ∣ ⌊q⌋ then ⌊q⌋ else ⌊q⌋ + 1

/-- Round half away from zero — the rounding the spec ascribes to
`scaleTo8Bit`; defined here only to compare against the code's rounding. -/
def roundHalfAway (q : ℚ) : ℤ :=
  if 0 ≤ q then ⌊q + 1/2⌋ else -⌊-q + 1/2⌋

/-- `eight_bit_color` from the script: `int(round(value / (4097 / 255), 0))`
on a finite float value (exact rational model). -/
def eight_bit_color (value : ℚ) : ℤ :=
  roundHalfEven (value / (4097 / 255))

/-- `celsius_to_fahrenheit` from the script: `(value * 1.8) + 32`. -/
def celsius_to_fahrenheit (value : ℚ) : ℚ :=
  (value * 1.8) + 32

/-- One observable outcome of a loop iteration: the record print
(`"Sensor Data: ..."`, reached exactly when `parse_payload` returns) or
one of the logged failures of `main`'s `except`/`try` clauses. -/
inductive Outcome
  | record (r : List PyF)
  | logIndexError (p : List Char)
  | logValueError (p : List Char)
  | logUnicodeError (raw : List ℕ)
deriving DecidableEq

/-- `int(round(channel / ..., 0))` on one color channel: succeeds on a
finite value, raises `ValueError` on NaN (`int(nan)`), and raises the
uncaught `OverflowError` on an infinity (`int(inf)`). -/
def chanErr : PyF → Option PyErr
  | PyF.finite _ => none
  | PyF.nan => some PyErr.valueError
  | PyF.inf => some PyErr.overflowError
  | PyF.ninf => some PyErr.overflowError

/-- The display calls after a successful parse:
`display_temperature(data[0])`, `display_humidity(data[1])`,
`display_pressure(data[2])`, `display_color(data[3..6])`.  Any missing
index raises `IndexError` (the four `display_color` arguments are all
evaluated before its body).  `round(x, 2)` returns a float even for
`inf`/`nan`, so the first three displays never raise; `display_color`
raises through `int(round(...))` as per `chanErr`, first channel first. -/
def displayPhase : List PyF → Option PyErr
  | t :: h :: p :: r :: g :: b :: a :: _ =>
    match chanErr r with
    | some e => some e
    | none =>
      match chanErr g with
      | some e => some e
      | none =>
        match chanErr b with
        | some e => some e
        | none =>
          match chanErr a with
          | some e => some e
          | none =>
            match t, h, p with  -- values displayed, no failure possible
            | _, _, _ => none
  | _ => some PyErr.indexError

/-- `main`'s exception handling around the parse/display block: an
`IndexError` or `ValueError` is logged (with the offending payload text)
and the loop continues; any other exception is uncaught and the process
crashes (`true` in the second component). -/
def catchOutcome (p : List Char) : PyErr → List Outcome × Bool
  | PyErr.indexError => ([Outcome.logIndexError p], false)
  | PyErr.valueError => ([Outcome.logValueError p], false)
  | PyErr.overflowError => ([], true)

/-- The `try` block of `main` on payload text `p`:
`data = parse_payload(p)`, the `Sensor Data` print, then the display
calls; exceptions are dispatched per `catchOutcome`. -/
def processPayload (p : List Char) : List Outcome × Bool :=
  match parse_payload p with
  | Except.error e => catchOutcome p e
  | Except.ok data =>
    match displayPhase data with
    | none => ([Outcome.record data], false)
    | some e =>
      let c := catchOutcome p e
      (Outcome.record data :: c.1, c.2)

/-- `bytes.decode("ASCII")` (strict): succeeds iff every byte is < 128. -/
def asciiDecode (raw : List ℕ) : Option (List Char) :=
  if raw.all (fun b => b < 128) then some (raw.map Char.ofNat) else none

/-- Python `s[:-2]`: drop the last two elements (empty when `len(s) ≤ 2`). -/
def dropLast2 {α : Type} (s : List α) : List α :=
  s.take (s.length - 2)

/-- One pass of `main`'s `while True` body.  State: the *persistent*
`payload` string variable (it survives iterations).  Input: the raw bytes
returned by `readline()`.  Output: new `payload` value, the observable
outcomes, and whether an uncaught exception crashed the loop.
A zero-length read is skipped entirely.  On a `UnicodeDecodeError` the
error is logged but execution falls through to `payload = payload[:-2]`
with the *stale* previous text, which is then parsed again. -/
def loopIteration (payload : List Char) (raw : List ℕ) :
    List Char × List Outcome × Bool :=
  if raw.length = 0 then (payload, [], false)
  else
    match asciiDecode raw with
    | some s =>
      let p := dropLast2 s
      (p, processPayload p)
    | none =>
      let p := dropLast2 payload
      let r := processPayload p
      (p, Outcome.logUnicodeError raw :: r.1, r.2)

/-- The receive loop run over a finite stream of `readline()` results
(the loop itself is unbounded; a finite prefix models it up to external
cancellation).  `payload` starts as `""`.  A crash stops the loop. -/
def runLoop (payload : List Char) : List (List ℕ) → List Outcome × Bool
  | [] => ([], false)
  | raw :: rest =>
    match loopIteration payload raw with
    | (_, os, true) => (os, true)
    | (p', os, false) =>
      let r := runLoop p' rest
      (os ++ r.1, r.2)

example :
    processPayload "+RCV=116,29,1|2|3|4|5|6|7|8,-61,56".data =
      ([Outcome.record [PyF.finite (mkRat 1 1), PyF.finite (mkRat 2 1),
        PyF.finite (mkRat 3 1), PyF.finite (mkRat 4 1), PyF.finite (mkRat 5 1),
        PyF.finite (mkRat 6 1), PyF.finite (mkRat 7 1), PyF.finite (mkRat 8 1)]],
        false) := by decide

example :
    processPayload "+RCV=1,2,3|4,-61,56".data =
      ([Outcome.record [PyF.finite (mkRat 3 1), PyF.finite (mkRat 4 1)],
        Outcome.logIndexError "+RCV=1,2,3|4,-61,56".data], false) := by decide

example :
    processPayload "+RCV=1,2,3|4|5|inf|7|8|9,-61,56".data =
      ([Outcome.record [PyF.finite (mkRat 3 1), PyF.finite (mkRat 4 1),
        PyF.finite (mkRat 5 1), PyF.inf, PyF.finite (mkRat 7 1),
        PyF.finite (mkRat 8 1), PyF.finite (mkRat 9 1)]], true) := by decide

example :
    runLoop [] [[255, 13, 10]] =
      ([Outcome.logUnicodeError [255, 13, 10], Outcome.logIndexError []],
        false) := by decide

/-- The serial connection: a queue of incoming byte lines (what successive
`readline()` calls will deliver; pyserial returns `b""` on deadline
expiry, modelled by an exhausted queue) and the log of written bytes. -/
structure SerialState where
  incoming : List (List ℕ)
  written : List (List ℕ)
deriving DecidableEq

/-- `serial_conn.readline()`: pop the next queued line, or return the
empty byte string (timeout, not an error) when nothing is queued. -/
def readline (s : SerialState) : SerialState × List ℕ :=
  match s.incoming with
  | [] => (s, [])
  | l :: ls => (⟨ls, s.written⟩, l)

/-- `serial_conn.write(data)`. -/
def write (s : SerialState) (data : List ℕ) : SerialState :=
  ⟨s.incoming, s.written ++ [data]⟩

/-- `str.encode` of an ASCII command string. -/
def strBytes (s : String) : List ℕ :=
  s.data.map Char.toNat

/-- Exact UTF-8 (strict) decoding as performed by `bytes.decode("utf-8")`,
rejecting truncated sequences, overlong encodings, surrogates and
out-of-range code points; `none` models a raised `UnicodeDecodeError`. -/
def utf8Decode : List ℕ → Option (List Char)
  | [] => some []
  | b :: bs =>
    if b < 128 then
      match utf8Decode bs with
      | none => none
      | some cs => some (Char.ofNat b :: cs)
    else if b < 194 then none
    else if b < 224 then
      match bs with
      | b1 :: bs1 =>
        if 128 ≤ b1 ∧ b1 < 192 then
          match utf8Decode bs1 with
          | none => none
          | some cs => some (Char.ofNat ((b - 192) * 64 + (b1 - 128)) :: cs)
        else none
      | [] => none
    else if b < 240 then
      match bs with
      | b1 :: b2 :: bs2 =>
        if (128 ≤ b1 ∧ b1 < 192) ∧ (128 ≤ b2 ∧ b2 < 192) ∧
            ¬(b = 224 ∧ b1 < 160) ∧ ¬(b = 237 ∧ 160 ≤ b1) then
          match utf8Decode bs2 with
          | none => none
          | some cs =>
            some (Char.ofNat ((b - 224) * 4096 + (b1 - 128) * 64 + (b2 - 128)) :: cs)
        else none
      | _ => none
    else if b < 245 then
      match bs with
      | b1 :: b2 :: b3 :: bs3 =>
        if (128 ≤ b1 ∧ b1 < 192) ∧ (128 ≤ b2 ∧ b2 < 192) ∧ (128 ≤ b3 ∧ b3 < 192) ∧
            ¬(b = 240 ∧ b1 < 144) ∧ ¬(b = 244 ∧ 144 ≤ b1) then
          match utf8Decode bs3 with
          | none => none
          | some cs =>
            some (Char.ofNat ((b - 240) * 262144 + (b1 - 128) * 4096 +
              (b2 - 128) * 64 + (b3 - 128)) :: cs)
        else none
      | _ => none
    else none

/-- The `AT+CPIN=<32-hex-digit key>` command sent by `set_lora_config`. -/
def cpinCmd : List ℕ :=
  strBytes "AT+CPIN=92A0ECEC9000DA0DCF0CAAB0ABA2E0EF\r\n"

/-- `set_lora_config`: write the network-key command, read one line, and
print its text (strip the trailing two bytes, decode UTF-8; a decode
failure is an uncaught exception, hence `none`). -/
def set_lora_config (s : SerialState) : Option (SerialState × List Char) :=
  let s1 := write s cpinCmd
  let rd := readline s1
  match utf8Decode (dropLast2 rd.2) with
  | none => none
  | some txt => some (rd.1, txt)

/-- The fixed diagnostic query script of `check_lora_config`: each entry
is (command text, printed label), in source order. -/
def lora_queries : List (String × String) :=
  [("AT?\r\n", "Module responding?"),
   ("AT+ADDRESS?\r\n", "Address:"),
   ("AT+VER?\r\n", "Firmware version:"),
   ("AT+NETWORKID?\r\n", "Network Id:"),
   ("AT+IPR?\r\n", "UART baud rate:"),
   ("AT+BAND?\r\n", "RF frequency"),
   ("AT+CRFOP?\r\n", "RF output power"),
   ("AT+MODE?\r\n", "Work mode"),
   ("AT+PARAMETER?\r\n", "RF parameters"),
   ("AT+CPIN?\r\n", "AES128 password of the network")]

/-- One write/read/print step of `check_lora_config`. -/
def queryStep (s : SerialState) (q : String × String) :
    Option (SerialState × (String × List Char)) :=
  let s1 := write s (strBytes q.1)
  let rd := readline s1
  match utf8Decode (dropLast2 rd.2) with
  | none => none
  | some txt => some (rd.1, (q.2, txt))

/-- Run a list of query steps in order, collecting (label, response text)
pairs; the first uncaught decode failure aborts. -/
def runQueries (s : SerialState) :
    List (String × String) → Option (SerialState × List (String × List Char))
  | [] => some (s, [])
  | q :: qs =>
    match queryStep s q with
    | none => none
    | some (s1, pr) =>
      match runQueries s1 qs with
      | none => none
      | some (s2, prs) => some (s2, pr :: prs)

/-- `check_lora_config`: the ten diagnostic queries, in source order. -/
def check_lora_config (s : SerialState) :
    Option (SerialState × List (String × List Char)) :=
  runQueries s lora_queries

/-- The result of a whole run of `main` (after the connection opened):
the transport state after the configuration phase, the network-key
acknowledgement text, the (label, response) pairs of the diagnostics, and
the telemetry outcomes of the receive loop over the remaining input. -/
structure RunResult where
  post : SerialState
  ack : List Char
  diagnostics : List (String × List Char)
  outcomes : List Outcome
  crashed : Bool
deriving DecidableEq

/-- `main` after `serial_conn.isOpen()`: `set_lora_config`, then
`check_lora_config`, then the `while True` receive loop over whatever
input is still queued (`payload` starts as `""`). -/
def pymain (s : SerialState) : Option RunResult :=
  match set_lora_config s with
  | none => none
  | some (s1, ack) =>
    match check_lora_config s1 with
    | none => none
    | some (s2, prs) =>
      let r := runLoop [] s2.incoming
      some ⟨s2, ack, prs, r.1, r.2⟩

/-- `roundHalfEven` returns the floor or the floor plus one. -/
theorem roundHalfEven_bounds (q : ℚ) :
    ⌊q⌋ ≤ roundHalfEven q ∧ roundHalfEven q ≤ ⌊q⌋ + 1 := by
  unfold roundHalfEven
  split_ifs <;> omega

/-- Away from an exact tie, rounding half to even and rounding half away
from zero agree. -/
theorem roundHalfEven_eq_roundHalfAway {q : ℚ} (h : q - ⌊q⌋ ≠ 1/2) :
    roundHalfEven q = roundHalfAway q := by
  have hf0 : (⌊q⌋ : ℚ) ≤ q := Int.floor_le q
  have hf1 : q < ⌊q⌋ + 1 := Int.lt_floor_add_one q
  unfold roundHalfEven roundHalfAway
  rcases lt_or_gt_of_ne h with hlt | hgt
  · rw [if_pos hlt]
    by_cases hq : 0 ≤ q
    · rw [if_pos hq]
      symm
      rw [Int.floor_eq_iff]
      constructor
      · linarith
      · linarith
    · rw [if_neg hq]
      have : ⌊-q + 1/2⌋ = -⌊q⌋ := by
        rw [Int.floor_eq_iff]
        constructor
        · push_cast; linarith
        · push_cast; linarith
      rw [this]; ring
  · rw [if_neg (by linarith), if_pos hgt]
    by_cases hq : 0 ≤ q
    · rw [if_pos hq]
      symm
      rw [Int.floor_eq_iff]
      constructor
      · push_cast; linarith
      · push_cast; linarith
    · rw [if_neg hq]
      have : ⌊-q + 1/2⌋ = -⌊q⌋ - 1 := by
        rw [Int.floor_eq_iff]
        constructor
        · push_cast; linarith
        · push_cast; linarith
      rw [this]; ring

/-- Dividing by `4097 / 255` is multiplying by `255 / 4097`. -/
theorem div_scale_eq (q : ℚ) : q / (4097 / 255) = q * 255 / 4097 := by
  ring

/-- For an integer input the scaled value is never an exact half, so the
rounding mode cannot matter: `510 * n = 4097 * (2k + 1)` would equate an
even and an odd integer. -/
theorem scale_tie_free (n : ℤ) :
    (n : ℚ) * 255 / 4097 - ⌊(n : ℚ) * 255 / 4097⌋ ≠ 1/2 := by
  intro h
  set k := ⌊(n : ℚ) * 255 / 4097⌋ with hk
  have h1 : (n : ℚ) * 255 / 4097 = k + 1/2 := by linarith
  have h2 : (n : ℚ) * 255 * 2 = 4097 * (2 * k + 1) := by
    field_simp at h1
    linarith
  have h3 : n * 255 * 2 = 4097 * (2 * k + 1) := by exact_mod_cast h2
  omega

/-- C3 counterexample: the claim "`scaleTo8Bit` returns
round-half-away-from-zero of `raw / (4097/255)` for every raw input"
fails at the rational input `4097/510`, whose scaled value is exactly
`1/2`: Python's banker's rounding gives 0 where half-away-from-zero
gives 1. -/
theorem c3_half_away_counterexample :
    eight_bit_color (4097/510) ≠ roundHalfAway ((4097/510) / (4097 / 255)) := by
  have h1 : ((4097:ℚ)/510) / (4097 / 255) = 1/2 := by norm_num
  unfold eight_bit_color
  rw [h1]
  unfold roundHalfEven roundHalfAway
  norm_num

/-- C3 (amended): `eight_bit_color` rounds `value / (4097/255)` with
Python 3's round-half-to-even; on every *integer* raw value no exact half
can arise, so there the result does equal round-half-away-from-zero of
`raw / (4097/255)` as the claim states; in particular
`eight_bit_color 0 = 0` and `eight_bit_color 4095 = 255`, which is also
the half-away rounding of `4095 / (4097/255)`. -/
theorem c3_integer_scaling :
    (∀ n : ℤ, eight_bit_color (n : ℚ) = roundHalfAway ((n : ℚ) / (4097 / 255))) ∧
    eight_bit_color 0 = 0 ∧ eight_bit_color 4095 = 255 ∧
    roundHalfAway ((4095 : ℚ) / (4097 / 255)) = 255 := by
  have key : ∀ n : ℤ, eight_bit_color (n : ℚ) = roundHalfAway ((n : ℚ) / (4097 / 255)) := by
    intro n
    unfold eight_bit_color
    rw [div_scale_eq]
    exact roundHalfEven_eq_roundHalfAway (scale_tie_free n)
  refine ⟨key, ?_, ?_, ?_⟩
  · simp only [eight_bit_color, roundHalfEven]
    norm_num
  · simp only [eight_bit_color, roundHalfEven]
    norm_num
  · have h := key 4095
    push_cast at h
    rw [← h]
    simp only [eight_bit_color, roundHalfEven]
    norm_num

/-- C6: on the documented 12-bit input range `0..4095` the scaled output
lies in `0..255`. -/
theorem c6_output_range (q : ℚ) (h0 : 0 ≤ q) (h1 : q ≤ 4095) :
    0 ≤ eight_bit_color q ∧ eight_bit_color q ≤ 255 := by
  unfold eight_bit_color
  have hx0 : 0 ≤ q / (4097 / 255) := div_nonneg h0 (by norm_num)
  have hxu : q / (4097 / 255) < 255 := by
    rw [div_lt_iff₀ (by norm_num)]
    linarith
  have hf0 : 0 ≤ ⌊q / (4097 / 255)⌋ := Int.floor_nonneg.mpr hx0
  have hf1 : ⌊q / (4097 / 255)⌋ < 255 := Int.floor_lt.mpr (by exact_mod_cast hxu)
  have hb := roundHalfEven_bounds (q / (4097 / 255))
  omega

/-- Witness for `c6_output_range` at the top of the range. -/
theorem c6_output_range_witness :
    0 ≤ eight_bit_color 4095 ∧ eight_bit_color 4095 ≤ 255 :=
  c6_output_range 4095 (by norm_num) (by norm_num)

/-- C10: no clamping outside the documented domain: an input above 4095
scales above 255, and a negative input scales negative. -/
theorem c10_no_clamping :
    255 < eight_bit_color 4200 ∧ eight_bit_color (-100) < 0 := by
  constructor
  · simp only [eight_bit_color, roundHalfEven]
    norm_num
  · simp only [eight_bit_color, roundHalfEven]
    norm_num

/-- C9: `celsius_to_fahrenheit` is the total function `c * 1.8 + 32`;
in particular it maps 0 to 32 and 100 to 212. -/
theorem c9_celsius_to_fahrenheit :
    (∀ c : ℚ, celsius_to_fahrenheit c = c * 1.8 + 32) ∧
    celsius_to_fahrenheit 0 = 32 ∧ celsius_to_fahrenheit 100 = 212 := by
  refine ⟨fun c => rfl, ?_, ?_⟩
  · unfold celsius_to_fahrenheit
    norm_num
  · unfold celsius_to_fahrenheit
    norm_num

/-- C7: a zero-length `readline()` result is the idle case: the iteration
produces no outcome, no crash, leaves the retained payload unchanged, and
the loop simply proceeds with the rest of the input. -/
theorem c7_empty_read_is_idle :
    (∀ payload : List Char, loopIteration payload [] = (payload, [], false)) ∧
    (∀ (payload : List Char) (rest : List (List ℕ)),
      runLoop payload ([] :: rest) = runLoop payload rest) := by
  constructor
  · intro payload
    rfl
  · intro payload rest
    simp [runLoop, loopIteration]

/-- `mapFloat` preserves length on success. -/
theorem mapFloat_length {l : List (List Char)} {v : List PyF}
    (h : mapFloat l = some v) : v.length = l.length := by
  induction l generalizing v with
  | nil =>
    simp only [mapFloat, Option.some.injEq] at h
    subst h
    rfl
  | cons f fs ih =>
    simp only [mapFloat] at h
    cases hf : pyFloat f with
    | none => rw [hf] at h; exact absurd h (by simp)
    | some x =>
      rw [hf] at h
      cases hm : mapFloat fs with
      | none => rw [hm] at h; exact absurd h (by simp)
      | some xs =>
        rw [hm] at h
        simp only [Option.some.injEq] at h
        subst h
        simp [ih hm]

/-- One non-numeric element makes the whole conversion fail. -/
theorem mapFloat_none {l : List (List Char)} {f : List Char}
    (hmem : f ∈ l) (hf : pyFloat f = none) : mapFloat l = none := by
  induction l with
  | nil => simp at hmem
  | cons g gs ih =>
    rcases List.mem_cons.mp hmem with rfl | hmem'
    · simp [mapFloat, hf]
    · simp only [mapFloat]
      cases pyFloat g with
      | none => rfl
      | some x => rw [ih hmem']

/-- A line in the wire payload format
`+RCV=<addr>,<len>,<f0>|...|<f6>,<rssi>,<snr>` assembled from its parts. -/
def mkWireLine (addr lenf : List Char) (fields : List (List Char))
    (rssi snr : List Char) : List Char :=
  "+RCV=".data ++ addr ++ ',' :: (lenf ++ ',' ::
    (joinSep '|' fields ++ ',' :: (rssi ++ ',' :: snr)))

/-- Comma-splitting a wire-format line isolates the pipe-joined field
block as the third segment. -/
theorem pySplit_mkWireLine {addr lenf rssi snr : List Char}
    {fields : List (List Char)}
    (haddr : ',' ∉ addr) (hlen : ',' ∉ lenf)
    (hfields : ∀ f ∈ fields, ',' ∉ f) :
    pySplit ',' (mkWireLine addr lenf fields rssi snr) =
      ("+RCV=".data ++ addr) :: lenf :: joinSep '|' fields ::
        pySplit ',' (rssi ++ ',' :: snr) := by
  have hpre : ',' ∉ "+RCV=".data ++ addr := by
    simp only [List.mem_append]
    rintro (h | h)
    · exact absurd h (by decide)
    · exact haddr h
  have hbody : ',' ∉ joinSep '|' fields := by
    intro hc
    rcases mem_joinSep hc with h | ⟨f, hfm, hcf⟩
    · exact absurd h (by decide)
    · exact hfields f hfm hcf
  unfold mkWireLine
  rw [show "+RCV=".data ++ addr ++ ',' :: (lenf ++ ',' ::
      (joinSep '|' fields ++ ',' :: (rssi ++ ',' :: snr))) =
      ("+RCV=".data ++ addr) ++ ',' :: (lenf ++ ',' ::
      (joinSep '|' fields ++ ',' :: (rssi ++ ',' :: snr))) by
    simp [List.append_assoc]]
  rw [pySplit_append hpre, pySplit_append hlen, pySplit_append hbody]

/-- C1: for every line in the wire payload format whose third
comma-segment is 7 pipe-joined strings that each parse as floats,
`parse_payload` succeeds with exactly those 7 values in order; and on
the spec's example line it returns
(23.94, 37.71, 99.89, 16.0, 38.0, 53.0, 80.0). -/
theorem c1_decode_conforming :
    (∀ (addr lenf rssi snr : List Char) (fields : List (List Char))
        (vals : List PyF),
      fields.length = 7 →
      ',' ∉ addr → ',' ∉ lenf →
      (∀ f ∈ fields, ',' ∉ f ∧ '|' ∉ f) →
      mapFloat fields = some vals →
      parse_payload (mkWireLine addr lenf fields rssi snr) = Except.ok vals ∧
        vals.length = 7) ∧
    parse_payload "+RCV=116,29,23.94|37.71|99.89|16|38|53|80,-61,56".data =
      Except.ok [PyF.finite 23.94, PyF.finite 37.71, PyF.finite 99.89,
        PyF.finite 16, PyF.finite 38, PyF.finite 53, PyF.finite 80] := by
  constructor
  · intro addr lenf rssi snr fields vals h7 haddr hlen hfc hmap
    have hne : fields ≠ [] := by
      intro h
      rw [h] at h7
      simp at h7
    have hsplit := @pySplit_mkWireLine addr lenf rssi snr fields
      haddr hlen (fun f hf => (hfc f hf).1)
    constructor
    · unfold parse_payload
      rw [hsplit]
      show (match mapFloat (pySplit '|' (joinSep '|' fields)) with
        | none => Except.error PyErr.valueError
        | some vals => Except.ok vals) = Except.ok vals
      rw [pySplit_joinSep hne (fun f hf => (hfc f hf).2), hmap]
    · rw [mapFloat_length hmap, h7]
  · have h : parse_payload "+RCV=116,29,23.94|37.71|99.89|16|38|53|80,-61,56".data =
        Except.ok [PyF.finite (mkRat 2394 100), PyF.finite (mkRat 3771 100),
          PyF.finite (mkRat 9989 100), PyF.finite (mkRat 16 1), PyF.finite (mkRat 38 1),
          PyF.finite (mkRat 53 1), PyF.finite (mkRat 80 1)] := by decide
    rw [h]
    norm_num [Rat.mkRat_eq_div]

/-- Witness for the universally quantified part of `c1_decode_conforming`
at the example line's components. -/
theorem c1_decode_conforming_witness :
    parse_payload (mkWireLine "116".data "29".data
      ["23.94".data, "37.71".data, "99.89".data, "16".data, "38".data,
        "53".data, "80".data] "-61".data "56".data) =
      Except.ok [PyF.finite (mkRat 2394 100), PyF.finite (mkRat 3771 100),
        PyF.finite (mkRat 9989 100), PyF.finite (mkRat 16 1), PyF.finite (mkRat 38 1),
        PyF.finite (mkRat 53 1), PyF.finite (mkRat 80 1)] ∧
    ([PyF.finite (mkRat 2394 100), PyF.finite (mkRat 3771 100),
        PyF.finite (mkRat 9989 100), PyF.finite (mkRat 16 1), PyF.finite (mkRat 38 1),
        PyF.finite (mkRat 53 1), PyF.finite (mkRat 80 1)] : List PyF).length = 7 :=
  c1_decode_conforming.1 "116".data "29".data "-61".data "56".data
    ["23.94".data, "37.71".data, "99.89".data, "16".data, "38".data,
      "53".data, "80".data] _ (by decide) (by decide) (by decide)
    (by decide) (by decide)

/-- A parse result with fewer than 7 fields makes the display phase hit a
missing index. -/
theorem displayPhase_short {l : List PyF} (h : l.length < 7) :
    displayPhase l = some PyErr.indexError := by
  rcases l with _ | ⟨x1, _ | ⟨x2, _ | ⟨x3, _ | ⟨x4, _ | ⟨x5, _ | ⟨x6, _ | ⟨x7, rest⟩⟩⟩⟩⟩⟩⟩
  · rfl
  · rfl
  · rfl
  · rfl
  · rfl
  · rfl
  · rfl
  · exfalso
    simp only [List.length_cons] at h
    omega

/-- C2 counterexample: a wire line whose third comma-segment has EIGHT
pipe-separated numeric fields; `parse_payload` succeeds and returns a
record of 8 fields instead of failing with a field-count error. -/
theorem c2_eight_fields_counterexample :
    parse_payload "+RCV=116,29,1|2|3|4|5|6|7|8,-61,56".data =
      Except.ok [PyF.finite 1, PyF.finite 2, PyF.finite 3, PyF.finite 4,
        PyF.finite 5, PyF.finite 6, PyF.finite 7, PyF.finite 8] ∧
    ([PyF.finite 1, PyF.finite 2, PyF.finite 3, PyF.finite 4,
        PyF.finite 5, PyF.finite 6, PyF.finite 7, PyF.finite 8] : List PyF).length ≠ 7 := by
  constructor
  · decide
  · decide

/-- C2 (amended): `parse_payload` raises `IndexError` (the modelled
field-count failure) exactly for fewer than 3 comma-segments; a third
segment with a different number of pipe-parts is NOT rejected: parsing
succeeds with that many fields — with more than 7 numeric fields a full
record is produced, and with fewer than 7 the record print is followed by
a caught `IndexError` from the display phase, i.e. a partial record is
observable. -/
theorem c2_field_count_behavior :
    (∀ p : List Char, (pySplit ',' p).length ≤ 2 →
      parse_payload p = Except.error PyErr.indexError ∧
      processPayload p = ([Outcome.logIndexError p], false)) ∧
    (∀ (p : List Char) (vals : List PyF),
      parse_payload p = Except.ok vals → vals.length < 7 →
      processPayload p = ([Outcome.record vals, Outcome.logIndexError p], false)) ∧
    (∀ (p : List Char) (t h1 pr r g b a : ℚ) (rest : List PyF),
      parse_payload p = Except.ok (PyF.finite t :: PyF.finite h1 :: PyF.finite pr ::
        PyF.finite r :: PyF.finite g :: PyF.finite b :: PyF.finite a :: rest) →
      processPayload p = ([Outcome.record (PyF.finite t :: PyF.finite h1 ::
        PyF.finite pr :: PyF.finite r :: PyF.finite g :: PyF.finite b ::
        PyF.finite a :: rest)], false)) := by
  refine ⟨?_, ?_, ?_⟩
  · intro p hlen
    have hg : (pySplit ',' p).get? 2 = none := by
      rw [List.get?_eq_none]
      exact hlen
    have hpp : parse_payload p = Except.error PyErr.indexError := by
      simp only [parse_payload, hg]
    exact ⟨hpp, by simp only [processPayload, hpp, catchOutcome]⟩
  · intro p vals hp h7
    simp only [processPayload, hp, displayPhase_short h7, catchOutcome]
  · intro p t h1 pr r g b a rest hp
    simp only [processPayload, hp, displayPhase, chanErr]

/-- Witness for `c2_field_count_behavior`: a one-segment line, a
two-field line, and a seven-field line. -/
theorem c2_field_count_behavior_witness :
    (parse_payload "+RCV=116".data = Except.error PyErr.indexError ∧
      processPayload "+RCV=116".data = ([Outcome.logIndexError "+RCV=116".data], false)) ∧
    processPayload "+RCV=1,2,3|4,-61,56".data =
      ([Outcome.record [PyF.finite 3, PyF.finite 4],
        Outcome.logIndexError "+RCV=1,2,3|4,-61,56".data], false) ∧
    processPayload "+RCV=1,2,3|4|5|6|7|8|9,-61,56".data =
      ([Outcome.record [PyF.finite 3, PyF.finite 4, PyF.finite 5, PyF.finite 6,
        PyF.finite 7, PyF.finite 8, PyF.finite 9]], false) :=
  ⟨c2_field_count_behavior.1 "+RCV=116".data (by decide),
   c2_field_count_behavior.2.1 "+RCV=1,2,3|4,-61,56".data
     [PyF.finite 3, PyF.finite 4] (by decide) (by decide),
   c2_field_count_behavior.2.2 "+RCV=1,2,3|4|5|6|7|8|9,-61,56".data
     3 4 5 6 7 8 9 [] (by decide)⟩

/-- C5: a non-numeric pipe-separated sub-field of the (existing) third
comma-segment makes `parse_payload` raise `ValueError` (the modelled
`NumericFormatError`), which the loop logs as its only outcome for the
line, producing no record and not crashing. -/
theorem c5_nonnumeric_value_error (p third f : List Char)
    (hthird : (pySplit ',' p).get? 2 = some third)
    (hmem : f ∈ pySplit '|' third)
    (hf : pyFloat f = none) :
    parse_payload p = Except.error PyErr.valueError ∧
    processPayload p = ([Outcome.logValueError p], false) := by
  have hpp : parse_payload p = Except.error PyErr.valueError := by
    simp only [parse_payload, hthird, mapFloat_none hmem hf]
  exact ⟨hpp, by simp only [processPayload, hpp, catchOutcome]⟩

/-- Witness for `c5_nonnumeric_value_error` on a line whose first
sub-field is `abc`. -/
theorem c5_nonnumeric_value_error_witness :
    parse_payload "+RCV=116,29,abc|2|3|4|5|6|7,-61,56".data =
      Except.error PyErr.valueError ∧
    processPayload "+RCV=116,29,abc|2|3|4|5|6|7,-61,56".data =
      ([Outcome.logValueError "+RCV=116,29,abc|2|3|4|5|6|7,-61,56".data], false) :=
  c5_nonnumeric_value_error "+RCV=116,29,abc|2|3|4|5|6|7,-61,56".data
    "abc|2|3|4|5|6|7".data "abc".data (by decide) (by decide) (by decide)

/-- C4: evaluating the loop on a well-formed line followed by the
invalid-ASCII line `b"\xff\r\n"`.  The corrupt line's iteration logs the
`UnicodeDecodeError` but then falls through to
`payload = payload[:-2]` on the *stale* previous text and parses it
again, so the single corrupt line produces TWO outcomes — the second a
record that was not derived from that line (the claim requires exactly
one outcome per line, derived from that same line). -/
theorem c4_stale_payload_reprocessed :
    runLoop [] [strBytes "+RCV=116,29,23.94|37.71|99.89|16|38|53|80,-61,56\r\n",
        [255, 13, 10]] =
      ([Outcome.record [PyF.finite (mkRat 2394 100), PyF.finite (mkRat 3771 100),
          PyF.finite (mkRat 9989 100), PyF.finite (mkRat 16 1), PyF.finite (mkRat 38 1),
          PyF.finite (mkRat 53 1), PyF.finite (mkRat 80 1)],
        Outcome.logUnicodeError [255, 13, 10],
        Outcome.record [PyF.finite (mkRat 2394 100), PyF.finite (mkRat 3771 100),
          PyF.finite (mkRat 9989 100), PyF.finite (mkRat 16 1), PyF.finite (mkRat 38 1),
          PyF.finite (mkRat 53 1), PyF.finite (mkRat 80 1)]], false) := by
  decide

/-- `readline` after `write`: the command is appended to the write log
and (at most) one queued line is consumed. -/
theorem readline_write_state (s : SerialState) (cmd : List ℕ) :
    (readline (write s cmd)).1.written = s.written ++ [cmd] ∧
    (readline (write s cmd)).1.incoming = s.incoming.drop 1 := by
  cases h : s.incoming with
  | nil => simp [readline, write, h]
  | cons l ls => simp [readline, write, h]

/-- Effect of a successful `runQueries`: every command is written in
order, one queued line is consumed per query, and the labels come back
in query order. -/
theorem runQueries_spec (qs : List (String × String)) :
    ∀ (s s' : SerialState) (prs : List (String × List Char)),
      runQueries s qs = some (s', prs) →
      s'.written = s.written ++ qs.map (fun q => strBytes q.1) ∧
      s'.incoming = s.incoming.drop qs.length ∧
      prs.map Prod.fst = qs.map Prod.snd := by
  induction qs with
  | nil =>
    intro s s' prs h
    simp only [runQueries, Option.some.injEq, Prod.mk.injEq] at h
    obtain ⟨rfl, rfl⟩ := h
    simp
  | cons q qs ih =>
    intro s s' prs h
    simp only [runQueries] at h
    cases hq : queryStep s q with
    | none =>
      simp only [hq] at h
      exact Option.noConfusion h
    | some x =>
      obtain ⟨s1, pr⟩ := x
      simp only [hq] at h
      cases hr : runQueries s1 qs with
      | none =>
        simp only [hr] at h
        exact Option.noConfusion h
      | some y =>
        obtain ⟨s2, prs2⟩ := y
        simp only [hr, Option.some.injEq, Prod.mk.injEq] at h
        obtain ⟨rfl, rfl⟩ := h
        simp only [queryStep] at hq
        cases hd : utf8Decode (dropLast2 (readline (write s (strBytes q.1))).2) with
        | none =>
          simp only [hd] at hq
          exact Option.noConfusion hq
        | some txt =>
          simp only [hd, Option.some.injEq, Prod.mk.injEq] at hq
          obtain ⟨rfl, rfl⟩ := hq
          have hw := readline_write_state s (strBytes q.1)
          obtain ⟨h1, h2, h3⟩ := ih _ _ _ hr
          refine ⟨?_, ?_, ?_⟩
          · rw [h1, hw.1]
            simp [List.append_assoc]
          · rw [h2, hw.2, List.drop_drop]
            simp [Nat.add_comm]
          · simp [h3]

/-- C8: `check_lora_config` issues exactly the ten diagnostic queries in
source order — each write followed by exactly one read — and in a full
run the network-key command plus the ten queries are all written, and the
telemetry loop only sees the input remaining after the eleven
configuration reads. -/
theorem c8_config_before_telemetry :
    (∀ (s s' : SerialState) (prs : List (String × List Char)),
      check_lora_config s = some (s', prs) →
      s'.written = s.written ++ lora_queries.map (fun q => strBytes q.1) ∧
      s'.incoming = s.incoming.drop 10 ∧
      prs.map Prod.fst = lora_queries.map Prod.snd ∧
      lora_queries.length = 10) ∧
    (∀ (s : SerialState) (r : RunResult), pymain s = some r →
      r.post.written = s.written ++ cpinCmd ::
        lora_queries.map (fun q => strBytes q.1) ∧
      (r.outcomes, r.crashed) = runLoop [] (s.incoming.drop 11)) := by
  constructor
  · intro s s' prs h
    have hs := runQueries_spec lora_queries s s' prs h
    exact ⟨hs.1, hs.2.1, hs.2.2, rfl⟩
  · intro s r h
    simp only [pymain] at h
    cases hs : set_lora_config s with
    | none =>
      simp only [hs] at h
      exact Option.noConfusion h
    | some x =>
      obtain ⟨s1, ack⟩ := x
      simp only [hs] at h
      cases hc : check_lora_config s1 with
      | none =>
        simp only [hc] at h
        exact Option.noConfusion h
      | some y =>
        obtain ⟨s2, prs⟩ := y
        simp only [hc, Option.some.injEq] at h
        subst h
        simp only [set_lora_config] at hs
        cases hd : utf8Decode (dropLast2 (readline (write s cpinCmd)).2) with
        | none =>
          simp only [hd] at hs
          exact Option.noConfusion hs
        | some txt =>
          simp only [hd, Option.some.injEq, Prod.mk.injEq] at hs
          obtain ⟨rfl, rfl⟩ := hs
          have hw := readline_write_state s cpinCmd
          have hcs := runQueries_spec lora_queries _ _ _ hc
          constructor
          · show s2.written = _
            rw [hcs.1, hw.1]
            simp [List.append_assoc]
          · show ((runLoop [] s2.incoming).1, (runLoop [] s2.incoming).2) = _
            have hin : s2.incoming = s.incoming.drop 11 := by
              rw [hcs.2.1, hw.2, List.drop_drop]
              rfl
            rw [hin]

/-- A concrete input for the full run: eleven configuration response
lines followed by one telemetry line. -/
def wState : SerialState :=
  ⟨List.replicate 11 [65, 13, 10] ++
    [strBytes "+RCV=116,29,23.94|37.71|99.89|16|38|53|80,-61,56\r\n"], []⟩

/-- The run result on `wState` (total by construction; the default is
never used, as the witness proof shows). -/
def wRes : RunResult :=
  (pymain wState).getD ⟨⟨[], []⟩, [], [], [], true⟩

/-- Witness for `c8_config_before_telemetry` on the concrete `wState`. -/
theorem c8_config_before_telemetry_witness :
    wRes.post.written = [] ++ cpinCmd ::
      lora_queries.map (fun q => strBytes q.1) ∧
    (wRes.outcomes, wRes.crashed) = runLoop [] (wState.incoming.drop 11) :=
  c8_config_before_telemetry.2 wState wRes (by decide)

/-- Witness for the quantified part of `c3_integer_scaling` at 4095. -/
theorem c3_integer_scaling_witness :
    eight_bit_color ((4095 : ℤ) : ℚ) =
      roundHalfAway (((4095 : ℤ) : ℚ) / (4097 / 255)) :=
  c3_integer_scaling.1 4095

/-- Witness for `c7_empty_read_is_idle` at a concrete retained payload. -/
theorem c7_empty_read_is_idle_witness :
    loopIteration "x".data [] = ("x".data, [], false) :=
  c7_empty_read_is_idle.1 "x".data

/-- Witness for the quantified part of `c9_celsius_to_fahrenheit`. -/
theorem c9_celsius_to_fahrenheit_witness :
    celsius_to_fahrenheit 100 = 100 * 1.8 + 32 :=
  c9_celsius_to_fahrenheit.1 100
